import Mathlib

/-!
Verification of the credential-issuance core of the gotrue repository
(signup/OTP flow, secret cipher, OTP engine, phone validation).

The Go source is shallowly embedded: pure helpers become Lean functions on
`List Nat` (bytes) and `String`; fallible code returns `Except`; a Go runtime
panic is modelled by the dedicated error constructor `panicked`; the external
cryptographic primitives (the AES block permutation and the HMAC compression)
are parameters of the definitions that call them, constrained only by the
properties the Go standard library guarantees (output lengths), while every
construction implemented by the repository itself (GCM sealing and opening,
nonce prefixing, key-length validation, dynamic truncation, base32/base64
handling, throttling, the orchestrator control flow) is translated
line-by-line from the source.
-/

/-! ## OTP Engine: phone-number syntax (api/phone.go) -/

/-- Byte sequences are lists of naturals; every operation that needs byte
range takes an explicit bound. -/
abbrev Bytes := List Nat

/-- Translation of the regular expression characters class check: a decimal
digit byte in the sense of the RE2 class backslash-d. -/
def isAsciiDigit (c : Char) : Bool := 48 ≤ c.toNat && c.toNat ≤ 57

/-- validateE164Format from api/phone.go: regexp.Match of the anchored
pattern, first character in 1-9 followed by one to fourteen characters of
the digit class.  The regex is anchored at both ends and has no multiline
flag, so it is a whole-string match. -/
def validateE164Format (phone : String) : Bool :=
  match phone.data with
  | [] => false
  | c :: rest =>
      (49 ≤ c.toNat && c.toNat ≤ 57) &&
      (1 ≤ rest.length && rest.length ≤ 14) &&
      rest.all isAsciiDigit

/-- Specification-side reading of the E.164 sentence of the spec: a leading
non-zero digit followed by digits only, 2 to 15 digits total. -/
def e164Spec (phone : String) : Prop :=
  2 ≤ phone.data.length ∧ phone.data.length ≤ 15 ∧
  (∀ c ∈ phone.data, 48 ≤ c.toNat ∧ c.toNat ≤ 57) ∧
  (∀ c ∈ phone.data.take 1, 49 ≤ c.toNat)

instance (phone : String) : Decidable (e164Spec phone) := by
  unfold e164Spec; infer_instance

/-! ## OTP Engine: phone normalization (api/phone.go formatPhoneNumber) -/

/-- Go strings dot Trim with a one-character cutset: drop the character from
both ends (all leading and all trailing occurrences). -/
def trimChar (cut : Char) (l : List Char) : List Char :=
  ((l.dropWhile (fun c => c == cut)).reverse.dropWhile (fun c => c == cut)).reverse

/-- Go strings dot ReplaceAll with a one-character pattern: every occurrence
of the character is replaced by the replacement list. -/
def replaceAllChar (old : Char) (new : List Char) : List Char → List Char
  | [] => []
  | c :: rest =>
      if c == old then new ++ replaceAllChar old new rest
      else c :: replaceAllChar old new rest

/-- formatPhoneNumber from api/phone.go: ReplaceAll of a space by the empty
string, applied to Trim of the phone by the plus cutset. -/
def formatPhoneNumber (phone : String) : String :=
  String.mk (replaceAllChar ' ' [] (trimChar '+' phone.data))

/-- Reading of claim C9 as written: strip one leading plus sign and any
whitespace (interior or otherwise; on inputs without whitespace the readings
agree), and change nothing else. -/
def claimNormalizePhone (phone : String) : String :=
  let l := match phone.data with
    | p :: rest => if p == '+' then rest else p :: rest
    | [] => []
  String.mk (l.filter (fun c => !c.isWhitespace))

example : validateE164Format "15555550123" = true := by decide
example : validateE164Format "+1 555-555-0123" = false := by decide
example : validateE164Format "0123456789" = false := by decide
example : validateE164Format "" = false := by decide
example : formatPhoneNumber "+1 555 0123" = "15550123" := by decide
example : formatPhoneNumber "123+" = "123" := by decide
example : claimNormalizePhone "123+" = "123+" := by decide

theorem replaceAllChar_nil_eq_filter (old : Char) (l : List Char) :
    replaceAllChar old [] l = l.filter (fun c => !(c == old)) := by
  induction l with
  | nil => rfl
  | cons c rest ih =>
      by_cases h : c == old <;> simp [replaceAllChar, h, ih]

/-- Claim C7: validateE164Format returns true exactly on strings matching the
E.164 plan (leading non-zero digit, digits only, 2 to 15 digits total), it is
total, and it accepts "15555550123" while rejecting "+1 555-555-0123",
"0123456789" and the empty string. -/
theorem claim_C7_e164_format :
    (∀ s : String, validateE164Format s = true ↔ e164Spec s) ∧
    validateE164Format "15555550123" = true ∧
    validateE164Format "+1 555-555-0123" = false ∧
    validateE164Format "0123456789" = false ∧
    validateE164Format "" = false := by
  refine ⟨fun s => ?_, by decide, by decide, by decide, by decide⟩
  unfold validateE164Format e164Spec
  cases h : s.data with
  | nil => simp [h]
  | cons c rest =>
    simp only [h, List.length_cons, List.take_succ_cons, List.take_zero,
      List.mem_cons, List.mem_singleton, Bool.and_eq_true, decide_eq_true_eq,
      List.all_eq_true, isAsciiDigit]
    constructor
    · rintro ⟨⟨⟨h1, h2⟩, h3, h4⟩, h5⟩
      refine ⟨by omega, by omega, ?_, ?_⟩
      · intro x hx
        rcases hx with rfl | hx
        · omega
        · exact h5 x hx
      · intro x hx
        rcases hx with rfl | hx
        · omega
        · simp at hx
    · rintro ⟨h1, h2, h3, h4⟩
      have hc := h4 c (Or.inl rfl)
      have hc2 := h3 c (Or.inl rfl)
      refine ⟨⟨⟨by omega, by omega⟩, by omega, by omega⟩, ?_⟩
      intro x hx
      exact h3 x (Or.inr hx)

/-- Claim C9 counterexample: on the input "123+" the code removes the
trailing plus sign (Go Trim cuts from both ends), while the claim, which
allows only a leading plus and interior whitespace to change, leaves the
input untouched. -/
theorem claim_C9_counterexample :
    formatPhoneNumber "123+" ≠ claimNormalizePhone "123+" := by decide

/-- Claim C9 as amended: formatPhoneNumber strips every plus sign at either
end of the string (leading and trailing, repeated), then removes every space
character (U+0020) anywhere in the remainder — exactly a filter of the
trimmed string — and changes nothing else; in particular other whitespace
such as a tab survives. -/
theorem claim_C9_normalize_phone :
    (∀ s : String,
      formatPhoneNumber s = String.mk ((trimChar '+' s.data).filter (fun c => !(c == ' ')))) ∧
    formatPhoneNumber "+12\t3 4+" = "12\t34" := by
  refine ⟨fun s => ?_, by decide⟩
  unfold formatPhoneNumber
  rw [replaceAllChar_nil_eq_filter]

/-! ## SecureToken (crypto/crypto.go): base64 URL encoding of 16 random bytes -/

/-- URL-safe base64 alphabet used by Go encoding/base64 URLEncoding. -/
def b64urlAlphabet : List Char :=
  "ABCDEFGHIJKLMNOPQRSTUVWXYZabcdefghijklmnopqrstuvwxyz0123456789-_".data

/-- Character of the URL-safe alphabet at an index (total lookup). -/
def b64Char (i : Nat) : Char := b64urlAlphabet.getD i 'A'

/-- Go base64.URLEncoding.EncodeToString: standard base64 over the URL-safe
alphabet, padded with the equals sign to a multiple of four characters. -/
def base64urlEncode : Bytes → List Char
  | [] => []
  | [a] => [b64Char (a >>> 2), b64Char ((a &&& 3) <<< 4), '=', '=']
  | [a, b] =>
      [b64Char (a >>> 2), b64Char (((a &&& 3) <<< 4) ||| (b >>> 4)),
       b64Char ((b &&& 15) <<< 2), '=']
  | a :: b :: c :: rest =>
      b64Char (a >>> 2) :: b64Char (((a &&& 3) <<< 4) ||| (b >>> 4)) ::
      b64Char (((b &&& 15) <<< 2) ||| (c >>> 6)) :: b64Char (c &&& 63) ::
      base64urlEncode rest

/-- removePadding from crypto/crypto.go: strings.TrimRight of the equals
sign. -/
def removePadding (l : List Char) : List Char :=
  (l.reverse.dropWhile (fun c => c == '=')).reverse

/-- SecureToken from crypto/crypto.go, with the sixteen random bytes read
from the system randomness source passed as the explicit argument. -/
def secureToken (b : Bytes) : String :=
  String.mk (removePadding (base64urlEncode b))

theorem b64Char_mem_alphabet (i : Nat) : b64Char i ∈ b64urlAlphabet := by
  unfold b64Char
  by_cases h : i < b64urlAlphabet.length
  · rw [List.getD_eq_getElem _ _ h]
    exact List.getElem_mem h
  · rw [List.getD_eq_default _ _ (by omega)]
    decide

theorem base64_shape_aux : ∀ (n : Nat) (l : Bytes), l.length ≤ n → l.length % 3 = 1 →
    ∃ body, base64urlEncode l = body ++ ['=', '='] ∧
      body.length = (l.length / 3) * 4 + 2 ∧ ∀ c ∈ body, c ∈ b64urlAlphabet := by
  intro n
  induction n with
  | zero =>
      intro l hl h
      have : l.length = 0 := by omega
      omega
  | succ n ih =>
      intro l hl h
      match l with
      | [] => simp at h
      | [a] =>
          refine ⟨[b64Char (a >>> 2), b64Char ((a &&& 3) <<< 4)], rfl, by simp, ?_⟩
          intro c hc
          simp only [List.mem_cons, List.not_mem_nil, or_false] at hc
          rcases hc with rfl | rfl <;> exact b64Char_mem_alphabet _
      | [a, b] => simp at h
      | a :: b :: c :: rest =>
          have hr : rest.length % 3 = 1 := by
            simp only [List.length_cons] at h; omega
          have hrl : rest.length ≤ n := by
            simp only [List.length_cons] at hl; omega
          obtain ⟨body, he, hlen, hmem⟩ := ih rest hrl hr
          refine ⟨b64Char (a >>> 2) :: b64Char (((a &&& 3) <<< 4) ||| (b >>> 4)) ::
            b64Char (((b &&& 15) <<< 2) ||| (c >>> 6)) :: b64Char (c &&& 63) :: body,
            ?_, ?_, ?_⟩
          · simp [base64urlEncode, he]
          · have h3 : (rest.length + 3) / 3 = rest.length / 3 + 1 :=
              Nat.add_div_right rest.length (by norm_num)
            simp only [List.length_cons, hlen]
            omega
          · intro x hx
            simp only [List.mem_cons] at hx
            rcases hx with rfl | rfl | rfl | rfl | hx
            · exact b64Char_mem_alphabet _
            · exact b64Char_mem_alphabet _
            · exact b64Char_mem_alphabet _
            · exact b64Char_mem_alphabet _
            · exact hmem x hx

theorem removePadding_body_pad (body : List Char)
    (h : ∀ c ∈ body, c ∈ b64urlAlphabet) :
    removePadding (body ++ ['=', '=']) = body := by
  unfold removePadding
  have hrev : body.reverse.dropWhile (fun c => c == '=') = body.reverse := by
    cases hb : body.reverse with
    | nil => rfl
    | cons x xs =>
        have hx : x ∈ body := by
          rw [← List.mem_reverse, hb]; exact List.mem_cons_self _ _
        have hxa := h x hx
        have hall : ∀ y ∈ b64urlAlphabet, (y == '=') = false := by decide
        have hxne : (x == '=') = false := hall x hxa
        simp [List.dropWhile, hxne]
  rw [List.reverse_append]
  simp only [List.reverse_cons, List.reverse_nil, List.nil_append, List.cons_append,
    List.dropWhile]
  norm_num [hrev]

/-- Claim C10: SecureToken on its sixteen random bytes yields a 22-character
string over the URL-safe base64 alphabet with no padding character. -/
theorem claim_C10_secure_token (b : Bytes) (hb : b.length = 16) :
    (secureToken b).length = 22 ∧
    (∀ c ∈ (secureToken b).data, c ∈ b64urlAlphabet) ∧
    ('=' ∈ (secureToken b).data → False) := by
  obtain ⟨body, he, hlen, hmem⟩ :=
    base64_shape_aux b.length b (le_refl _) (by omega)
  have hrp : removePadding (base64urlEncode b) = body := by
    rw [he]; exact removePadding_body_pad body hmem
  have hdata : (secureToken b).data = body := by
    unfold secureToken
    rw [hrp]
  refine ⟨?_, ?_, ?_⟩
  · show (secureToken b).data.length = 22
    rw [hdata, hlen, hb]
  · intro c hc
    rw [hdata] at hc
    exact hmem c hc
  · intro hc
    rw [hdata] at hc
    have := hmem _ hc
    revert this
    decide

theorem claim_C10_secure_token_witness :
    (List.replicate 16 0 : Bytes).length = 16 ∧
    ((secureToken (List.replicate 16 0)).length = 22 ∧
     (∀ c ∈ (secureToken (List.replicate 16 0)).data, c ∈ b64urlAlphabet) ∧
     ('=' ∈ (secureToken (List.replicate 16 0)).data → False)) :=
  ⟨by decide, claim_C10_secure_token (List.replicate 16 0) (by decide)⟩

/-! ## Secret Cipher (crypto/crypto.go and the totp-url variant)

The AES block permutation and the MD5-plus-hex key derivation are Go
standard-library primitives, passed as parameters `aes` and `md5hex`; the
only facts used about them are their fixed output lengths (16-byte blocks,
32-character hex digest), which the standard library guarantees.  Everything
else — nonce handling, GCM counter mode, GHASH tagging, the seal/open
structure, key-length validation and the error/panic behaviour — is
translated from the repository source.  A Go runtime panic (slice range
violation, or an explicit panic call) is modelled by the `panicked`
constructor, distinct from every returned error. -/

inductive CryptoErr
  | panicked
  | keySize
  | openFailed
  | configMissing
  | configLength
  deriving DecidableEq, Repr

/-- GCM standard nonce size used by cipher.NewGCM. -/
def nonceSize : Nat := 12

/-- GCM tag size. -/
def gcmTagSize : Nat := 16

/-- Big-endian bytes to natural. -/
def beToNat (l : Bytes) : Nat := l.foldl (fun acc b => acc * 256 + b) 0

/-- Exactly k big-endian bytes of a natural (truncating above 256 to the k). -/
def natToBe : Nat → Nat → Bytes
  | 0, _ => []
  | k + 1, n => natToBe k (n / 256) ++ [n % 256]

/-- Pointwise xor of two byte strings, truncated to the shorter. -/
def xorBytes (a b : Bytes) : Bytes := List.zipWith (fun x y => x ^^^ y) a b

/-- Reduction constant of the GCM field. -/
def gfR : Nat := 0xe1000000000000000000000000000000

/-- One step of the shift-and-add GCM field multiplication. -/
def gfMulStep (x : Nat) (zv : Nat × Nat) (i : Nat) : Nat × Nat :=
  let z := if (x >>> (127 - i)) &&& 1 = 1 then zv.1 ^^^ zv.2 else zv.1
  let v := if zv.2 &&& 1 = 1 then (zv.2 >>> 1) ^^^ gfR else zv.2 >>> 1
  (z, v)

/-- Multiplication in the GCM Galois field of 2 to the 128. -/
def gfMul (x y : Nat) : Nat :=
  ((List.range 128).foldl (gfMulStep x) (0, y)).1

/-- Zero-pad a byte string up to a multiple of 16. -/
def pad16 (l : Bytes) : Bytes := l ++ List.replicate ((16 - l.length % 16) % 16) 0

/-- GHASH accumulation over 16-byte blocks, fuelled by the data length. -/
def ghashLoop (h : Nat) : Nat → Bytes → Nat → Nat
  | 0, _, y => y
  | fuel + 1, data, y =>
      match data with
      | [] => y
      | _ :: _ => ghashLoop h fuel (data.drop 16) (gfMul (y ^^^ beToNat (data.take 16)) h)

/-- GHASH of a byte string under hash subkey h. -/
def ghash (h : Nat) (data : Bytes) : Nat := ghashLoop h data.length data 0

/-- Increment of the low 32 bits of a counter block. -/
def inc32 (b : Bytes) : Bytes :=
  b.take 12 ++ natToBe 4 ((beToNat (b.drop 12) + 1) % 2 ^ 32)

/-- Successive counter blocks under the block permutation E. -/
def ctrBlocks (E : Bytes → Bytes) (ctr : Bytes) : Nat → Bytes
  | 0 => []
  | k + 1 => E ctr ++ ctrBlocks E (inc32 ctr) k

/-- Counter-mode keystream of n bytes starting after the tag counter. -/
def gcmKeystream (E : Bytes → Bytes) (j0 : Bytes) (n : Nat) : Bytes :=
  (ctrBlocks E (inc32 j0) ((n + 15) / 16)).take n

/-- GCM authentication tag over a ciphertext (no additional data, as the
source passes nil). -/
def gcmTag (E : Bytes → Bytes) (j0 c : Bytes) : Bytes :=
  let h := beToNat (E (List.replicate 16 0))
  let lenBlock := natToBe 8 0 ++ natToBe 8 (c.length * 8)
  let s := ghash h (pad16 c ++ lenBlock)
  (xorBytes (natToBe 16 s) (E j0)).take 16

/-- cipher.AEAD Seal with a 12-byte nonce: counter-mode ciphertext followed
by the 16-byte tag. -/
def gcmSeal (E : Bytes → Bytes) (nonce plain : Bytes) : Bytes :=
  let j0 := nonce ++ [0, 0, 0, 1]
  let c := xorBytes plain (gcmKeystream E j0 plain.length)
  c ++ gcmTag E j0 c

/-- cipher.AEAD Open: rejects blobs shorter than one tag, recomputes the tag
over the ciphertext part and compares, then strips the keystream. -/
def gcmOpen (E : Bytes → Bytes) (nonce blob : Bytes) : Except CryptoErr Bytes :=
  if blob.length < gcmTagSize then .error .openFailed
  else
    let j0 := nonce ++ [0, 0, 0, 1]
    let c := blob.take (blob.length - gcmTagSize)
    let t := blob.drop (blob.length - gcmTagSize)
    if gcmTag E j0 c = t then .ok (xorBytes c (gcmKeystream E j0 c.length))
    else .error .openFailed

/-- Go aes.NewCipher: succeeds exactly on 16, 24 or 32 byte keys, returning
the keyed block permutation; otherwise KeySizeError. -/
def aesNewCipher (aes : Bytes → Bytes → Bytes) (key : Bytes) :
    Except CryptoErr (Bytes → Bytes) :=
  if key.length = 16 ∨ key.length = 24 ∨ key.length = 32 then .ok (aes key)
  else .error .keySize

/-- getEncryptionKey from crypto/crypto.go: panics when config processing
fails, otherwise the hex MD5 digest (32 bytes) of the passphrase of any
length.  The environment value is `none` on a config-processing failure. -/
def getEncryptionKey (md5hex : Bytes → Bytes) (env : Option Bytes) :
    Except CryptoErr Bytes :=
  match env with
  | none => .error .panicked
  | some pp => .ok (md5hex pp)

/-- EncryptSecret from crypto/crypto.go: derives the MD5 key, builds the
cipher (panicking on a construction error, which the 32-byte key rules out),
draws a fresh nonce (the explicit `nonce` argument) and returns the sealed
blob with the nonce as prefix.  NewGCM cannot fail on an AES cipher since
its block size is 16. -/
def encryptSecret (aes : Bytes → Bytes → Bytes) (md5hex : Bytes → Bytes)
    (env : Option Bytes) (nonce secret : Bytes) : Except CryptoErr Bytes :=
  match getEncryptionKey md5hex env with
  | .error e => .error e
  | .ok key =>
      match aesNewCipher aes key with
      | .error _ => .error .panicked
      | .ok E => .ok (nonce ++ gcmSeal E nonce secret)

/-- DecryptSecret from crypto/crypto.go: derives the same key, returns the
cipher-construction error if any, then slices the blob at the nonce size —
which in Go is a runtime panic when the blob is shorter than one nonce — and
opens the remainder. -/
def decryptSecret (aes : Bytes → Bytes → Bytes) (md5hex : Bytes → Bytes)
    (env : Option Bytes) (blob : Bytes) : Except CryptoErr Bytes :=
  match getEncryptionKey md5hex env with
  | .error e => .error e
  | .ok key =>
      match aesNewCipher aes key with
      | .error e => .error e
      | .ok E =>
          if blob.length < nonceSize then .error .panicked
          else gcmOpen E (blob.take nonceSize) (blob.drop nonceSize)

/-- validatePassphrase from the totp-url variant: config-processing failure
is an error, and the passphrase must be exactly 32 bytes. -/
def validatePassphrase (env : Option Bytes) : Except CryptoErr Bytes :=
  match env with
  | none => .error .configMissing
  | some pp => if pp.length = 32 then .ok pp else .error .configLength

/-- EncryptTotpUrl from the totp-url variant: validated passphrase used
directly as the AES key, fresh nonce as prefix of the sealed blob. -/
def encryptTotpUrl (aes : Bytes → Bytes → Bytes) (env : Option Bytes)
    (nonce url : Bytes) : Except CryptoErr Bytes :=
  match validatePassphrase env with
  | .error e => .error e
  | .ok key =>
      match aesNewCipher aes key with
      | .error e => .error e
      | .ok E => .ok (nonce ++ gcmSeal E nonce url)

/-- DecryptTotpUrl from the totp-url variant, with the same slice-panic
behaviour on blobs shorter than one nonce. -/
def decryptTotpUrl (aes : Bytes → Bytes → Bytes) (env : Option Bytes)
    (blob : Bytes) : Except CryptoErr Bytes :=
  match validatePassphrase env with
  | .error e => .error e
  | .ok key =>
      match aesNewCipher aes key with
      | .error e => .error e
      | .ok E =>
          if blob.length < nonceSize then .error .panicked
          else gcmOpen E (blob.take nonceSize) (blob.drop nonceSize)

/-- Constant stand-in block permutation used only to witness theorems that
hold for every block permutation of block size 16. -/
def aesZero : Bytes → Bytes → Bytes := fun _ _ => List.replicate 16 0

/-- Constant stand-in digest function used only to witness theorems that
hold for every derivation with 32-byte output. -/
def md5hexZero : Bytes → Bytes := fun _ => List.replicate 32 48

theorem natToBe_length (k : Nat) : ∀ n, (natToBe k n).length = k := by
  induction k with
  | zero => intro n; rfl
  | succ k ih => intro n; simp [natToBe, ih]

theorem ctrBlocks_length (E : Bytes → Bytes) (hE : ∀ b, (E b).length = 16)
    (k : Nat) : ∀ ctr, (ctrBlocks E ctr k).length = 16 * k := by
  induction k with
  | zero => intro ctr; rfl
  | succ k ih =>
      intro ctr
      simp only [ctrBlocks, List.length_append, hE, ih]
      omega

theorem gcmKeystream_length (E : Bytes → Bytes) (hE : ∀ b, (E b).length = 16)
    (j0 : Bytes) (n : Nat) : (gcmKeystream E j0 n).length = n := by
  unfold gcmKeystream
  rw [List.length_take, ctrBlocks_length E hE]
  have h1 := Nat.div_add_mod (n + 15) 16
  have h2 : (n + 15) % 16 < 16 := Nat.mod_lt _ (by norm_num)
  omega

theorem xorBytes_length (a b : Bytes) :
    (xorBytes a b).length = min a.length b.length := List.length_zipWith _ _ _

theorem xorBytes_cancel (p : Bytes) : ∀ ks : Bytes, p.length ≤ ks.length →
    xorBytes (xorBytes p ks) ks = p := by
  induction p with
  | nil => intro ks h; rfl
  | cons a p ih =>
      intro ks h
      match ks with
      | [] => simp at h
      | k :: ks =>
          simp only [xorBytes, List.zipWith_cons_cons] at *
          rw [Nat.xor_cancel_right]
          simp only [List.length_cons] at h
          have := ih ks (by omega)
          simp only [xorBytes] at this
          rw [this]

theorem gcmTag_length (E : Bytes → Bytes) (hE : ∀ b, (E b).length = 16)
    (j0 c : Bytes) : (gcmTag E j0 c).length = 16 := by
  unfold gcmTag
  simp only [List.length_take, xorBytes_length, natToBe_length, hE]
  omega

theorem gcmOpen_append (E : Bytes → Bytes) (nonce c t : Bytes)
    (ht : t.length = 16) (htag : gcmTag E (nonce ++ [0, 0, 0, 1]) c = t) :
    gcmOpen E nonce (c ++ t) =
      .ok (xorBytes c (gcmKeystream E (nonce ++ [0, 0, 0, 1]) c.length)) := by
  unfold gcmOpen
  have hlen : (c ++ t).length = c.length + 16 := by simp [ht]
  rw [hlen]
  rw [if_neg (by unfold gcmTagSize; omega)]
  have harith : c.length + 16 - gcmTagSize = c.length := by unfold gcmTagSize; omega
  rw [harith, List.take_left, List.drop_left, if_pos htag]

theorem gcmOpen_gcmSeal (E : Bytes → Bytes) (hE : ∀ b, (E b).length = 16)
    (nonce p : Bytes) : gcmOpen E nonce (gcmSeal E nonce p) = .ok p := by
  have hks : (gcmKeystream E (nonce ++ [0, 0, 0, 1]) p.length).length = p.length :=
    gcmKeystream_length E hE _ _
  have hc : (xorBytes p (gcmKeystream E (nonce ++ [0, 0, 0, 1]) p.length)).length
      = p.length := by
    rw [xorBytes_length, hks]; omega
  have htag : (gcmTag E (nonce ++ [0, 0, 0, 1])
      (xorBytes p (gcmKeystream E (nonce ++ [0, 0, 0, 1]) p.length))).length = 16 :=
    gcmTag_length E hE _ _
  unfold gcmSeal
  rw [gcmOpen_append E nonce _ _ htag rfl]
  rw [hc]
  rw [xorBytes_cancel p _ (by omega)]

/-- Claim C3: for every block permutation of block size 16, every 32-byte key
derivation, every configuration in which encrypt succeeds (the passphrase
environment was processed), every fresh 12-byte nonce and every byte sequence
x including the empty one, DecryptSecret applied to the blob produced by
EncryptSecret under the same passphrase returns x. -/
theorem claim_C3_roundtrip (aes : Bytes → Bytes → Bytes) (md5hex : Bytes → Bytes)
    (hE : ∀ k b, (aes k b).length = 16) (hmd5 : ∀ s, (md5hex s).length = 32)
    (pp nonce x : Bytes) (hn : nonce.length = 12) :
    ∃ blob, encryptSecret aes md5hex (some pp) nonce x = .ok blob ∧
      decryptSecret aes md5hex (some pp) blob = .ok x := by
  have hkey : aesNewCipher aes (md5hex pp) = .ok (aes (md5hex pp)) := by
    unfold aesNewCipher
    rw [if_pos (Or.inr (Or.inr (hmd5 pp)))]
  refine ⟨nonce ++ gcmSeal (aes (md5hex pp)) nonce x, ?_, ?_⟩
  · simp only [encryptSecret, getEncryptionKey, hkey]
  · simp only [decryptSecret, getEncryptionKey, hkey]
    have hlen : (nonce ++ gcmSeal (aes (md5hex pp)) nonce x).length =
        12 + (gcmSeal (aes (md5hex pp)) nonce x).length := by simp [hn]
    rw [hlen]
    rw [if_neg (by unfold nonceSize; omega)]
    have htake : (nonce ++ gcmSeal (aes (md5hex pp)) nonce x).take nonceSize = nonce := by
      have h12 : nonceSize = nonce.length := by rw [hn]; rfl
      rw [h12, List.take_left]
    have hdrop : (nonce ++ gcmSeal (aes (md5hex pp)) nonce x).drop nonceSize =
        gcmSeal (aes (md5hex pp)) nonce x := by
      have h12 : nonceSize = nonce.length := by rw [hn]; rfl
      rw [h12, List.drop_left]
    rw [htake, hdrop]
    exact gcmOpen_gcmSeal (aes (md5hex pp)) (fun b => hE _ b) nonce x

theorem claim_C3_roundtrip_witness :
    (∀ k b, (aesZero k b).length = 16) ∧ (∀ s, (md5hexZero s).length = 32) ∧
    (List.replicate 12 0 : Bytes).length = 12 ∧
    (∃ blob, encryptSecret aesZero md5hexZero (some []) (List.replicate 12 0) [] = .ok blob ∧
      decryptSecret aesZero md5hexZero (some []) blob = .ok []) :=
  ⟨fun _ _ => by simp [aesZero], fun _ => by simp [md5hexZero], by simp,
   claim_C3_roundtrip aesZero md5hexZero (fun _ _ => by simp [aesZero])
     (fun _ => by simp [md5hexZero]) [] (List.replicate 12 0) [] (by simp)⟩

set_option maxRecDepth 10000 in
/-- Claim C4, failing-input evaluation: on a blob shorter than one nonce
(the empty blob, and an 11-byte blob) DecryptSecret reaches the Go slice
expression blob up to nonceSize and panics — modelled by the `panicked`
result, distinct from every returned error — instead of returning a
CryptoError; on blobs of at least one nonce it does return an
authentication error and never panics (12-byte and 40-byte corrupt blobs
shown). -/
theorem claim_C4_short_blob_panic :
    decryptSecret aesZero md5hexZero (some []) [] = .error .panicked ∧
    decryptSecret aesZero md5hexZero (some []) (List.replicate 11 0) = .error .panicked ∧
    decryptSecret aesZero md5hexZero (some []) (List.replicate 12 0) = .error .openFailed ∧
    decryptSecret aesZero md5hexZero (some []) (List.replicate 40 1) = .error .openFailed := by
  refine ⟨rfl, rfl, rfl, rfl⟩

/-- Claim C6 counterexample: EncryptSecret with a three-byte passphrase
succeeds (the MD5 derivation always yields a 32-byte key), whereas the claim
requires a ConfigurationError whenever the passphrase is not exactly 32
bytes. -/
theorem claim_C6_counterexample :
    (encryptSecret aesZero md5hexZero (some [97, 98, 99])
      (List.replicate 12 0) [1, 2]).isOk = true := rfl

/-- Claim C6 as amended: the length-validated variant EncryptTotpUrl fails
with the configuration errors exactly as the claim says — config processing
failure when the passphrase setting is absent, a length error when it is not
exactly 32 bytes — and succeeds for every 32-byte passphrase, returning the
sealed blob prefixed by the fresh nonce; the MD5 variant EncryptSecret never
checks the length: it succeeds for a passphrase of any length, and a config
processing failure makes it panic rather than return a configuration
error. -/
theorem claim_C6_encrypt_validation (aes : Bytes → Bytes → Bytes)
    (md5hex : Bytes → Bytes) (hmd5 : ∀ s, (md5hex s).length = 32)
    (nonce url : Bytes) :
    encryptTotpUrl aes none nonce url = .error .configMissing ∧
    (∀ pp : Bytes, pp.length ≠ 32 →
      encryptTotpUrl aes (some pp) nonce url = .error .configLength) ∧
    (∀ pp : Bytes, pp.length = 32 →
      encryptTotpUrl aes (some pp) nonce url =
        .ok (nonce ++ gcmSeal (aes pp) nonce url)) ∧
    (∀ pp : Bytes, encryptSecret aes md5hex (some pp) nonce url =
      .ok (nonce ++ gcmSeal (aes (md5hex pp)) nonce url)) ∧
    encryptSecret aes md5hex none nonce url = .error .panicked := by
  refine ⟨rfl, ?_, ?_, ?_, rfl⟩
  · intro pp hpp
    simp only [encryptTotpUrl, validatePassphrase]
    rw [if_neg hpp]
  · intro pp hpp
    have hcipher : aesNewCipher aes pp = .ok (aes pp) := by
      unfold aesNewCipher
      rw [if_pos (Or.inr (Or.inr hpp))]
    simp only [encryptTotpUrl, validatePassphrase]
    rw [if_pos hpp]
    simp only [hcipher]
  · intro pp
    have hcipher : aesNewCipher aes (md5hex pp) = .ok (aes (md5hex pp)) := by
      unfold aesNewCipher
      rw [if_pos (Or.inr (Or.inr (hmd5 pp)))]
    simp only [encryptSecret, getEncryptionKey, hcipher]

theorem claim_C6_encrypt_validation_witness :
    (∀ s, (md5hexZero s).length = 32) ∧
    (encryptTotpUrl aesZero none [] [] = .error .configMissing ∧
     (∀ pp : Bytes, pp.length ≠ 32 →
       encryptTotpUrl aesZero (some pp) [] [] = .error .configLength) ∧
     (∀ pp : Bytes, pp.length = 32 →
       encryptTotpUrl aesZero (some pp) [] [] =
         .ok ([] ++ gcmSeal (aesZero pp) [] [])) ∧
     (∀ pp : Bytes, encryptSecret aesZero md5hexZero (some pp) [] [] =
       .ok ([] ++ gcmSeal (aesZero (md5hexZero pp)) [] [])) ∧
     encryptSecret aesZero md5hexZero none [] [] = .error .panicked) :=
  ⟨fun _ => by simp [md5hexZero],
   claim_C6_encrypt_validation aesZero md5hexZero (fun _ => by simp [md5hexZero]) [] []⟩

/-! ## OTP Engine: TOTP code generation (GenerateOtp via totp.GenerateCodeCustom)

The keyed hash (HMAC-SHA256) is a standard-library primitive passed as the
parameter `hmac`; base32 handling, the 8-byte big-endian counter, dynamic
truncation, the decimal reduction and the zero-padded formatting are
translated from the library call chain the repository invokes with
six-digit, SHA-256 options.  The code-window function floor of the unix
time over the period is translated from the totp counter computation. -/

inductive OtpErr
  | invalidBase32
  deriving DecidableEq, Repr

/-- Value of one standard base32 alphabet character. -/
def b32Val (c : Char) : Option Nat :=
  if 65 ≤ c.toNat ∧ c.toNat ≤ 90 then some (c.toNat - 65)
  else if 50 ≤ c.toNat ∧ c.toNat ≤ 55 then some (c.toNat - 24)
  else none

/-- Accumulated value of a run of base32 characters, most significant
first. -/
def b32Vals : List Char → Option Nat
  | [] => some 0
  | c :: rest =>
      match b32Val c, b32Vals rest with
      | some v, some n => some (v * 32 ^ rest.length + n)
      | _, _ => none

/-- Number of bytes carried by a block with k non-padding characters. -/
def b32BlockBytes : Nat → Option Nat
  | 2 => some 1
  | 4 => some 2
  | 5 => some 3
  | 7 => some 4
  | 8 => some 5
  | _ => none

/-- Decoding of one 8-character base32 block with optional trailing
padding. -/
def b32DecodeBlock (cs : List Char) : Option Bytes :=
  let pre := cs.takeWhile (fun c => !(c == '='))
  if (cs.drop pre.length).all (fun c => c == '=') then
    match b32BlockBytes pre.length, b32Vals pre with
    | some n, some v => some (natToBe n (v >>> (5 * pre.length - 8 * n)))
    | _, _ => none
  else none

/-- Go base32.StdEncoding.DecodeString on a string padded to a multiple of
eight: block-wise decoding, padding legal only in the final block. -/
def base32Decode : List Char → Option Bytes
  | [] => some []
  | c1 :: c2 :: c3 :: c4 :: c5 :: c6 :: c7 :: c8 :: rest =>
      match b32DecodeBlock [c1, c2, c3, c4, c5, c6, c7, c8] with
      | none => none
      | some b =>
          if c8 == '=' && !rest.isEmpty then none
          else
            match base32Decode rest with
            | none => none
            | some r => some (b ++ r)
  | _ => none

/-- Normalization the otp library applies before decoding: trim surrounding
whitespace and map to upper case. -/
def b32Normalize (s : String) : List Char :=
  (((s.data.dropWhile Char.isWhitespace).reverse.dropWhile
    Char.isWhitespace).reverse).map Char.toUpper

/-- Padding of a secret whose length is not a multiple of eight. -/
def padB32 (cs : List Char) : List Char :=
  if cs.length % 8 = 0 then cs else cs ++ List.replicate (8 - cs.length % 8) '='

/-- Zero-padded six-digit decimal rendering: Digits.Format applies the
percent-zero-six-d format to the value already reduced modulo ten to the
sixth, which writes exactly these six digit characters. -/
def hotpDigits6 (n : Nat) : String :=
  String.mk [Char.ofNat (48 + n / 100000 % 10), Char.ofNat (48 + n / 10000 % 10),
             Char.ofNat (48 + n / 1000 % 10), Char.ofNat (48 + n / 100 % 10),
             Char.ofNat (48 + n / 10 % 10), Char.ofNat (48 + n % 10)]

/-- hotp.GenerateCodeCustom with six digits: base32-decode the secret, mac
the 8-byte big-endian counter, dynamically truncate at the offset given by
the low nibble of the last digest byte, mask to 31 bits and reduce modulo
ten to the sixth. -/
def hotpGenerateCode (hmac : Bytes → Bytes → Bytes) (secret : String)
    (counter : Nat) : Except OtpErr String :=
  match base32Decode (padB32 (b32Normalize secret)) with
  | none => .error .invalidBase32
  | some key =>
      let sum := hmac key (natToBe 8 counter)
      let offset := (sum.getD (sum.length - 1) 0) &&& 15
      let value := (((sum.getD offset 0) &&& 127) <<< 24) |||
                   (((sum.getD (offset + 1) 0) &&& 255) <<< 16) |||
                   (((sum.getD (offset + 2) 0) &&& 255) <<< 8) |||
                   ((sum.getD (offset + 3) 0) &&& 255)
      .ok (hotpDigits6 (value % 1000000))

/-- Counter of the totp library: floor of the unix time over the period,
converted to a 64-bit unsigned value. -/
def totpCounter (t : Int) (period : Nat) : Nat :=
  ((Int.fdiv t (Int.ofNat period)) % (2 ^ 64 : Int)).toNat

/-- GenerateOtp from crypto/crypto.go: totp.GenerateCodeCustom at the given
timestamp with the configured period, six digits. -/
def generateOtp (hmac : Bytes → Bytes → Bytes) (secret : String) (t : Int)
    (expiry : Nat) : Except OtpErr String :=
  hotpGenerateCode hmac secret (totpCounter t expiry)

/-- Constant stand-in keyed hash used only to witness theorems that hold for
every keyed hash. -/
def hmacZero : Bytes → Bytes → Bytes := fun _ _ => List.replicate 32 0

theorem isAsciiDigit_ofNat_mod10 (x : Nat) :
    isAsciiDigit (Char.ofNat (48 + x % 10)) = true := by
  have h : x % 10 < 10 := Nat.mod_lt _ (by norm_num)
  set r := x % 10 with hr
  interval_cases r <;> decide

/-- Claim C8: the generated code is a deterministic, side-effect-free
function of the secret and the time window floor of the timestamp over the
period — two timestamps in one window give identical codes — and every
successful result is a zero-padded decimal string of exactly six digit
characters. -/
theorem claim_C8_totp_window (hmac : Bytes → Bytes → Bytes) (secret : String)
    (period : Nat) (t1 t2 : Int)
    (hw : Int.fdiv t1 (Int.ofNat period) = Int.fdiv t2 (Int.ofNat period)) :
    generateOtp hmac secret t1 period = generateOtp hmac secret t2 period ∧
    (∀ code, generateOtp hmac secret t1 period = .ok code →
      code.length = 6 ∧ ∀ c ∈ code.data, isAsciiDigit c = true) := by
  constructor
  · unfold generateOtp totpCounter
    rw [hw]
  · intro code hcode
    unfold generateOtp hotpGenerateCode at hcode
    cases hdec : base32Decode (padB32 (b32Normalize secret)) with
    | none => rw [hdec] at hcode; exact absurd hcode (by simp)
    | some key =>
        rw [hdec] at hcode
        simp only [Except.ok.injEq] at hcode
        subst hcode
        constructor
        · rfl
        · intro c hc
          unfold hotpDigits6 at hc
          simp only [List.mem_cons, List.not_mem_nil, or_false] at hc
          rcases hc with rfl | rfl | rfl | rfl | rfl | rfl <;>
            exact isAsciiDigit_ofNat_mod10 _

theorem claim_C8_totp_window_witness :
    Int.fdiv 31 (Int.ofNat 30) = Int.fdiv 59 (Int.ofNat 30) ∧
    (generateOtp hmacZero "GEZDGNBV" 31 30 = generateOtp hmacZero "GEZDGNBV" 59 30 ∧
     (∀ code, generateOtp hmacZero "GEZDGNBV" 31 30 = .ok code →
       code.length = 6 ∧ ∀ c ∈ code.data, isAsciiDigit c = true)) :=
  ⟨by decide, claim_C8_totp_window hmacZero "GEZDGNBV" 30 31 59 (by decide)⟩

/-! ## Orchestrator: sendPhoneConfirmation, user-token variant

Translation of the variant that stores the code in the user record
(confirmation_token, confirmation_sent_at): throttle on the nullable
sent-at, generate the key and the code, remember the old token and restore
it when generation or delivery fails, set the sent-at only after a
successful delivery, and persist both columns in one UpdateOnly at the end.
The fallible collaborators (key generation, code generation, provider
lookup, delivery, database update) are oracle booleans in the environment;
the freshly generated code is the environment's newToken. -/

inductive PhoneErr
  | maxFrequency
  | internalKey
  | internalOtp
  | providerMissing
  | sendFailed
  | dbUpdate
  | decryptUrl
  | keyFromUrl
  | createAuth
  | nilPanic
  deriving DecidableEq, Repr

structure UserRec where
  confirmationToken : String
  confirmationSentAt : Option Int
  deriving DecidableEq, Repr

structure UserColumns where
  confirmationToken : String
  confirmationSentAt : Option Int
  deriving DecidableEq, Repr

structure SendEnv where
  keyOk : Bool
  otpOk : Bool
  providerOk : Bool
  sendOk : Bool
  dbOk : Bool
  newToken : String
  deriving DecidableEq, Repr

/-- Steps of the user-token variant after the throttle check passed. -/
def sendPhoneUserAfter (env : SendEnv) (now : Int) (user : UserRec)
    (db : UserColumns) : Except PhoneErr Unit × UserRec × UserColumns :=
  if env.keyOk then
    if env.otpOk then
      let user1 := { user with confirmationToken := env.newToken }
      if env.providerOk then
        if env.sendOk then
          let user2 := { user1 with confirmationSentAt := some now }
          if env.dbOk then
            (.ok (), user2, ⟨user2.confirmationToken, user2.confirmationSentAt⟩)
          else (.error .dbUpdate, user2, db)
        else
          (.error .sendFailed, { user1 with confirmationToken := user.confirmationToken }, db)
      else (.error .providerMissing, user1, db)
    else (.error .internalOtp, user, db)
  else (.error .internalKey, user, db)

/-- sendPhoneConfirmation, user-token variant: the Go guard throttles when
the sent-at is non-nil and sent-at plus the window is not before now, that
is unless sent-at plus window is strictly before now. -/
def sendPhoneUser (env : SendEnv) (now window : Int) (user : UserRec)
    (db : UserColumns) : Except PhoneErr Unit × UserRec × UserColumns :=
  match user.confirmationSentAt with
  | some t =>
      if t + window < now then sendPhoneUserAfter env now user db
      else (.error .maxFrequency, user, db)
  | none => sendPhoneUserAfter env now user db

/-! ## Orchestrator: sendPhoneConfirmation, totp-auth variant (api/phone.go)

Translation of the variant that throttles on the totp_auth row: find the
row, throttle when the row exists and its nullable otp_last_requested_at
plus the window is not before now — a nil timestamp is dereferenced by the
guard, a runtime panic — lazily create the row (persisted immediately, with
a null timestamp) when absent, decrypt the url, rebuild the key, set the
timestamp to now, generate the code, persist the timestamp with UpdateOnly
on the bare connection, and only then look up the provider and deliver.
The row's encrypted url is carried unchanged and omitted from the record.
Find and UpdateOnly run on the connection directly, not inside one
transaction, which the two-request executors below make visible. -/

structure TotpAuthRec where
  otpLastRequestedAt : Option Int
  deriving DecidableEq, Repr

structure AuthDb where
  totpAuth : Option TotpAuthRec
  deriving DecidableEq, Repr

structure AuthEnv where
  createOk : Bool
  decryptOk : Bool
  keyOk : Bool
  otpOk : Bool
  dbOk : Bool
  providerOk : Bool
  sendOk : Bool
  deriving DecidableEq, Repr

/-- Steps of the totp-auth variant after the throttle check passed, acting
on the row snapshot `rec` and writing through to the shared store. -/
def sendPhoneAuthAfter (env : AuthEnv) (now : Int) (rec : TotpAuthRec)
    (db : AuthDb) : Except PhoneErr Unit × AuthDb :=
  if env.decryptOk then
    if env.keyOk then
      let rec2 := { rec with otpLastRequestedAt := some now }
      if env.otpOk then
        if env.dbOk then
          if env.providerOk then
            if env.sendOk then (.ok (), ⟨some rec2⟩)
            else (.error .sendFailed, ⟨some rec2⟩)
          else (.error .providerMissing, ⟨some rec2⟩)
        else (.error .dbUpdate, db)
      else (.error .internalOtp, db)
    else (.error .keyFromUrl, db)
  else (.error .decryptUrl, db)

/-- Body of the totp-auth variant given the result of the find; the throttle
guard and the lazy creation act on that snapshot while writes go to the
shared store. -/
def sendPhoneAuthBody (env : AuthEnv) (now window : Int)
    (found : Option TotpAuthRec) (db : AuthDb) : Except PhoneErr Unit × AuthDb :=
  match found with
  | some rec =>
      match rec.otpLastRequestedAt with
      | none => (.error .nilPanic, db)
      | some t =>
          if t + window < now then sendPhoneAuthAfter env now rec db
          else (.error .maxFrequency, db)
  | none =>
      if env.createOk then
        sendPhoneAuthAfter env now ⟨none⟩ ⟨some ⟨none⟩⟩
      else (.error .createAuth, db)

/-- sendPhoneConfirmation, totp-auth variant: one request, find then body. -/
def sendPhoneAuth (env : AuthEnv) (now window : Int) (db : AuthDb) :
    Except PhoneErr Unit × AuthDb :=
  sendPhoneAuthBody env now window db.totpAuth db

/-- Two requests run one after the other: the second request's find sees the
first request's write. -/
def runTwoSerial (env1 env2 : AuthEnv) (n1 n2 window : Int) (db : AuthDb) :
    Except PhoneErr Unit × Except PhoneErr Unit × AuthDb :=
  let r1 := sendPhoneAuth env1 n1 window db
  let r2 := sendPhoneAuth env2 n2 window r1.2
  (r1.1, r2.1, r2.2)

/-- Two requests whose finds both happen before either write — an
interleaving the store permits because the find and the update are separate
operations on the connection, not one transaction. -/
def runTwoInterleaved (env1 env2 : AuthEnv) (n1 n2 window : Int) (db : AuthDb) :
    Except PhoneErr Unit × Except PhoneErr Unit × AuthDb :=
  let f1 := db.totpAuth
  let f2 := db.totpAuth
  let r1 := sendPhoneAuthBody env1 n1 window f1 db
  let r2 := sendPhoneAuthBody env2 n2 window f2 r1.2
  (r1.1, r2.1, r2.2)

/-- Environment with every collaborator succeeding. -/
def allOkSendEnv : SendEnv := ⟨true, true, true, true, true, "123456"⟩

/-- Environment in which only the delivery fails. -/
def sendFailSendEnv : SendEnv := ⟨true, true, true, false, true, "123456"⟩

/-- Totp-auth environment with every collaborator succeeding. -/
def allOkAuthEnv : AuthEnv := ⟨true, true, true, true, true, true, true⟩

/-- Totp-auth environment in which only the delivery fails. -/
def sendFailAuthEnv : AuthEnv := ⟨true, true, true, true, true, true, false⟩

theorem sendPhoneUserAfter_ne_max (env : SendEnv) (now : Int) (user : UserRec)
    (db : UserColumns) :
    (sendPhoneUserAfter env now user db).1 ≠ .error .maxFrequency := by
  unfold sendPhoneUserAfter
  rcases env with ⟨k, o, p, s, d, tok⟩
  cases k <;> cases o <;> cases p <;> cases s <;> cases d <;> simp

theorem sendPhoneAuthAfter_ne_guard (env : AuthEnv) (now : Int)
    (rec : TotpAuthRec) (db : AuthDb) :
    (sendPhoneAuthAfter env now rec db).1 ≠ .error .maxFrequency ∧
    (sendPhoneAuthAfter env now rec db).1 ≠ .error .nilPanic := by
  unfold sendPhoneAuthAfter
  rcases env with ⟨c, de, k, o, d, p, s⟩
  cases de <;> cases k <;> cases o <;> cases d <;> cases p <;> cases s <;> simp

/-- Claim C1 counterexample: in the totp-auth variant a request whose
delivery fails leaves the persisted otp_last_requested_at at the new
issuance time (the update ran before the delivery attempt and is never
rolled back), so the state after the request differs from the state
before and the update is visible to a subsequent read. -/
theorem claim_C1_counterexample :
    (sendPhoneAuth sendFailAuthEnv 100 60 ⟨some ⟨some 0⟩⟩).1 = .error .sendFailed ∧
    (sendPhoneAuth sendFailAuthEnv 100 60 ⟨some ⟨some 0⟩⟩).2 = ⟨some ⟨some 100⟩⟩ ∧
    (⟨some ⟨some 100⟩⟩ : AuthDb) ≠ ⟨some ⟨some 0⟩⟩ :=
  ⟨rfl, rfl, by decide⟩

/-- Claim C1 as amended: in the user-token variant a delivery failure
restores the pending token, leaves the sent-at alone and persists nothing,
exactly as claimed; in the totp-auth variant the pending token of the user
record is untouched but the otp_last_requested_at column was already
persisted before the delivery attempt, so after a delivery failure the new
issuance time remains visible to subsequent reads. -/
theorem claim_C1_delivery_rollback (env : SendEnv) (env2 : AuthEnv)
    (now window t : Int) (user : UserRec) (db : UserColumns)
    (hk : env.keyOk = true) (ho : env.otpOk = true) (hp : env.providerOk = true)
    (hs : env.sendOk = false)
    (hde : env2.decryptOk = true) (hk2 : env2.keyOk = true) (ho2 : env2.otpOk = true)
    (hd2 : env2.dbOk = true) (hp2 : env2.providerOk = true) (hs2 : env2.sendOk = false)
    (hpass : t + window < now) :
    (sendPhoneUser env now window user db).2.1 = user ∧
    (sendPhoneUser env now window user db).2.2 = db ∧
    sendPhoneAuth env2 now window ⟨some ⟨some t⟩⟩ =
      (.error .sendFailed, ⟨some ⟨some now⟩⟩) := by
  have hafter : sendPhoneUserAfter env now user db = (.error .sendFailed, user, db) := by
    unfold sendPhoneUserAfter
    rw [hk, ho, hp, hs]
    simp
  have hmain : sendPhoneUser env now window user db = (.error .sendFailed, user, db) ∨
      sendPhoneUser env now window user db = (.error .maxFrequency, user, db) := by
    unfold sendPhoneUser
    split
    · split
      · rw [hafter]; exact Or.inl rfl
      · exact Or.inr rfl
    · rw [hafter]; exact Or.inl rfl
  refine ⟨?_, ?_, ?_⟩
  · rcases hmain with h | h <;> rw [h]
  · rcases hmain with h | h <;> rw [h]
  · show sendPhoneAuthBody env2 now window (some ⟨some t⟩) ⟨some ⟨some t⟩⟩ = _
    show (if t + window < now then
        sendPhoneAuthAfter env2 now ⟨some t⟩ ⟨some ⟨some t⟩⟩
      else (.error .maxFrequency, ⟨some ⟨some t⟩⟩)) = _
    rw [if_pos hpass]
    unfold sendPhoneAuthAfter
    rw [hde, hk2, ho2, hd2, hp2, hs2]
    simp

theorem claim_C1_delivery_rollback_witness :
    sendFailSendEnv.keyOk = true ∧ sendFailSendEnv.otpOk = true ∧
    sendFailSendEnv.providerOk = true ∧ sendFailSendEnv.sendOk = false ∧
    sendFailAuthEnv.decryptOk = true ∧ sendFailAuthEnv.keyOk = true ∧
    sendFailAuthEnv.otpOk = true ∧ sendFailAuthEnv.dbOk = true ∧
    sendFailAuthEnv.providerOk = true ∧ sendFailAuthEnv.sendOk = false ∧
    ((0 : Int) + 60 < 100) ∧
    ((sendPhoneUser sendFailSendEnv 100 60 ⟨"tok", none⟩ ⟨"tok", none⟩).2.1 = ⟨"tok", none⟩ ∧
     (sendPhoneUser sendFailSendEnv 100 60 ⟨"tok", none⟩ ⟨"tok", none⟩).2.2 = ⟨"tok", none⟩ ∧
     sendPhoneAuth sendFailAuthEnv 100 60 ⟨some ⟨some 0⟩⟩ =
       (.error .sendFailed, ⟨some ⟨some 100⟩⟩)) :=
  ⟨rfl, rfl, rfl, rfl, rfl, rfl, rfl, rfl, rfl, rfl, by decide,
   claim_C1_delivery_rollback sendFailSendEnv sendFailAuthEnv 100 60 0
     ⟨"tok", none⟩ ⟨"tok", none⟩ rfl rfl rfl rfl rfl rfl rfl rfl rfl rfl (by decide)⟩

/-- Claim C2 counterexample: at the instant now equal to lastIssuedAt plus
the cooldown window — where the claim, which throttles only while now is
strictly before the bound, requires the request to pass — the code
throttles, because the Go guard rejects unless the bound is strictly
before now. -/
theorem claim_C2_counterexample :
    (sendPhoneUser allOkSendEnv 60 60 ⟨"old", some 0⟩ ⟨"old", some 0⟩).1 =
      .error .maxFrequency ∧
    ¬ ((60 : Int) < 0 + 60) :=
  ⟨rfl, by decide⟩

/-- Claim C2 as amended: a request is rejected with the throttling signal
(and nothing downstream runs) exactly when the record exists with a non-null
lastIssuedAt and now is at or before lastIssuedAt plus the cooldown window
(not strictly before it); a user record with a null sent-at is never
throttled, and a missing totp-auth row is never throttled either (first
issuance passes the rate check); but in the totp-auth variant an existing
row whose timestamp is null makes the guard dereference a nil pointer — a
panic, not a pass. -/
theorem claim_C2_throttle_guard (env : SendEnv) (env2 : AuthEnv)
    (now window : Int) (user : UserRec) (db : UserColumns) (dbB : AuthDb) :
    ((sendPhoneUser env now window user db).1 = .error .maxFrequency ↔
      ∃ t, user.confirmationSentAt = some t ∧ now ≤ t + window) ∧
    ((sendPhoneAuth env2 now window dbB).1 = .error .maxFrequency ↔
      ∃ rec t, dbB.totpAuth = some rec ∧ rec.otpLastRequestedAt = some t ∧
        now ≤ t + window) ∧
    ((sendPhoneAuth env2 now window dbB).1 = .error .nilPanic ↔
      ∃ rec, dbB.totpAuth = some rec ∧ rec.otpLastRequestedAt = none) ∧
    (user.confirmationSentAt = none →
      (sendPhoneUser env now window user db).1 ≠ .error .maxFrequency) := by
  refine ⟨?_, ?_, ?_, ?_⟩
  · constructor
    · intro h
      unfold sendPhoneUser at h
      split at h
      next t heq =>
        split at h
        · exact absurd h (sendPhoneUserAfter_ne_max env now user db)
        next hlt => exact ⟨t, heq, by omega⟩
      next heq => exact absurd h (sendPhoneUserAfter_ne_max env now user db)
    · rintro ⟨t, hsent, hle⟩
      unfold sendPhoneUser
      rw [hsent]
      dsimp only []
      rw [if_neg (by omega)]
  · constructor
    · intro h
      unfold sendPhoneAuth sendPhoneAuthBody at h
      split at h
      next rec heq =>
        split at h
        next heq2 => simp at h
        next t heq2 =>
          split at h
          · exact absurd h (sendPhoneAuthAfter_ne_guard env2 now rec dbB).1
          next hlt => exact ⟨rec, t, heq, heq2, by omega⟩
      next heq =>
        split at h
        · exact absurd h (sendPhoneAuthAfter_ne_guard env2 now ⟨none⟩ ⟨some ⟨none⟩⟩).1
        · simp at h
    · rintro ⟨rec, t, hdb, hrec, hle⟩
      unfold sendPhoneAuth sendPhoneAuthBody
      rw [hdb]
      dsimp only []
      rw [hrec]
      dsimp only []
      rw [if_neg (by omega)]
  · constructor
    · intro h
      unfold sendPhoneAuth sendPhoneAuthBody at h
      split at h
      next rec heq =>
        split at h
        next heq2 => exact ⟨rec, heq, heq2⟩
        next t heq2 =>
          split at h
          · exact absurd h (sendPhoneAuthAfter_ne_guard env2 now rec dbB).2
          · simp at h
      next heq =>
        split at h
        · exact absurd h (sendPhoneAuthAfter_ne_guard env2 now ⟨none⟩ ⟨some ⟨none⟩⟩).2
        · simp at h
    · rintro ⟨rec, hdb, hrec⟩
      unfold sendPhoneAuth sendPhoneAuthBody
      rw [hdb]
      dsimp only []
      rw [hrec]
  · intro hnone h
    unfold sendPhoneUser at h
    rw [hnone] at h
    dsimp only [] at h
    exact absurd h (sendPhoneUserAfter_ne_max env now user db)

/-- Claim C5 counterexample: two requests for the same user at the same
instant (both at time 100, cooldown 60, last issuance 0) whose find
operations are interleaved before either write both pass the throttle check
and both succeed — two successes inside one cooldown window, which the
claim rules out.  The interleaving is possible because the find and the
timestamp update are separate operations on the connection, not a
read-modify-write inside one transaction. -/
theorem claim_C5_counterexample :
    runTwoInterleaved allOkAuthEnv allOkAuthEnv 100 100 60 ⟨some ⟨some 0⟩⟩ =
      (.ok (), .ok (), ⟨some ⟨some 100⟩⟩) := rfl

/-- Claim C5 as amended: the throttle read and the issuance-timestamp write
are not wrapped in one transaction, so when the two finds interleave before
either write both requests pass the rate check and both succeed inside one
cooldown window; only when the requests are serialized does the second
request observe the first's timestamp and fail with the throttling
signal. -/
theorem claim_C5_concurrent_requests (t0 n1 n2 window : Int)
    (h1 : t0 + window < n1) (h2 : t0 + window < n2) (h3 : ¬ (n1 + window < n2)) :
    runTwoInterleaved allOkAuthEnv allOkAuthEnv n1 n2 window ⟨some ⟨some t0⟩⟩ =
      (.ok (), .ok (), ⟨some ⟨some n2⟩⟩) ∧
    runTwoSerial allOkAuthEnv allOkAuthEnv n1 n2 window ⟨some ⟨some t0⟩⟩ =
      (.ok (), .error .maxFrequency, ⟨some ⟨some n1⟩⟩) := by
  have hb1 : ∀ db : AuthDb, sendPhoneAuthBody allOkAuthEnv n1 window (some ⟨some t0⟩) db =
      (.ok (), ⟨some ⟨some n1⟩⟩) := by
    intro db
    show (if t0 + window < n1 then
        sendPhoneAuthAfter allOkAuthEnv n1 ⟨some t0⟩ db
      else (.error .maxFrequency, db)) = _
    rw [if_pos h1]
    rfl
  have hb2 : ∀ db : AuthDb, sendPhoneAuthBody allOkAuthEnv n2 window (some ⟨some t0⟩) db =
      (.ok (), ⟨some ⟨some n2⟩⟩) := by
    intro db
    show (if t0 + window < n2 then
        sendPhoneAuthAfter allOkAuthEnv n2 ⟨some t0⟩ db
      else (.error .maxFrequency, db)) = _
    rw [if_pos h2]
    rfl
  constructor
  · show (let r1 := sendPhoneAuthBody allOkAuthEnv n1 window (some ⟨some t0⟩) ⟨some ⟨some t0⟩⟩
      let r2 := sendPhoneAuthBody allOkAuthEnv n2 window (some ⟨some t0⟩) r1.2
      (r1.1, r2.1, r2.2)) = _
    rw [hb1]
    dsimp only []
    rw [hb2]
  · show (let r1 := sendPhoneAuth allOkAuthEnv n1 window ⟨some ⟨some t0⟩⟩
      let r2 := sendPhoneAuth allOkAuthEnv n2 window r1.2
      (r1.1, r2.1, r2.2)) = _
    have hr1 : sendPhoneAuth allOkAuthEnv n1 window ⟨some ⟨some t0⟩⟩ =
        (.ok (), ⟨some ⟨some n1⟩⟩) := hb1 _
    have hr2 : sendPhoneAuth allOkAuthEnv n2 window ⟨some ⟨some n1⟩⟩ =
        (.error .maxFrequency, ⟨some ⟨some n1⟩⟩) := by
      show (if n1 + window < n2 then
          sendPhoneAuthAfter allOkAuthEnv n2 ⟨some n1⟩ ⟨some ⟨some n1⟩⟩
        else (.error .maxFrequency, ⟨some ⟨some n1⟩⟩)) = _
      rw [if_neg h3]
    rw [hr1]
    dsimp only []
    rw [hr2]

theorem claim_C5_concurrent_requests_witness :
    ((0 : Int) + 60 < 100) ∧ ((0 : Int) + 60 < 100) ∧ ¬ ((100 : Int) + 60 < 100) ∧
    (runTwoInterleaved allOkAuthEnv allOkAuthEnv 100 100 60 ⟨some ⟨some 0⟩⟩ =
       (.ok (), .ok (), ⟨some ⟨some 100⟩⟩) ∧
     runTwoSerial allOkAuthEnv allOkAuthEnv 100 100 60 ⟨some ⟨some 0⟩⟩ =
       (.ok (), .error .maxFrequency, ⟨some ⟨some 100⟩⟩)) :=
  ⟨by decide, by decide, by decide,
   claim_C5_concurrent_requests 0 100 100 60 (by decide) (by decide) (by decide)⟩
